import Mathlib

/-
Verification of the receipt extraction-and-taxation core of a Dutch
freelance bookkeeping application.

The development shallowly embeds the functions of
`src/utils/calculations.py`, `src/services/llm_service.py`,
`src/services/processing_pipeline.py` and
`src/services/exchange_rate_service.py`.  Monetary amounts are modelled
as rationals; Python's built-in `round(x, 2)` (round half to even) is
modelled by `pyRound2`.  External effects (database reads, API calls,
the system clock, third-party date parsing) are passed in as explicit
arguments.
-/

namespace DutchTax

/-! ## Rounding model

Python's `round(x, 2)` rounds to the nearest multiple of 0.01, resolving
ties to the even multiple (banker's rounding).  `rhe` is round half to
even on rationals; `pyRound2` applies it at two decimals. -/

def rhe (q : ℚ) : ℤ :=
  if q - ⌊q⌋ < 1/2 then ⌊q⌋
  else if 1/2 < q - ⌊q⌋ then ⌊q⌋ + 1
  else if ⌊q⌋ % 2 = 0 then ⌊q⌋ else ⌊q⌋ + 1

def pyRound2 (q : ℚ) : ℚ := (rhe (q * 100) : ℚ) / 100

/-- Modelled from the spec: "All results rounded half-up to 2 decimals"
(round half up at two decimals, ties away from the floor).  Used only to
compare the specified rounding mode against the implemented one. -/
def roundHalfUpSpec2 (q : ℚ) : ℚ := ((⌊q * 100 + 1/2⌋ : ℤ) : ℚ) / 100

theorem rhe_spec (q : ℚ) :
    |(rhe q : ℚ) - q| ≤ 1/2 ∧ (|(rhe q : ℚ) - q| = 1/2 → rhe q % 2 = 0) := by
  have h0 : ((⌊q⌋ : ℚ)) ≤ q := Int.floor_le q
  have h1 : q < (⌊q⌋ : ℚ) + 1 := Int.lt_floor_add_one q
  unfold rhe
  split_ifs with hlt hgt heven
  · constructor
    · rw [abs_le]; constructor <;> linarith
    · intro habs
      have : |(⌊q⌋ : ℚ) - q| = q - (⌊q⌋ : ℚ) := by
        rw [abs_sub_comm, abs_of_nonneg (by linarith)]
      rw [this] at habs; linarith
  · constructor
    · rw [abs_le]; push_cast; constructor <;> linarith
    · intro habs
      have : |((⌊q⌋ + 1 : ℤ) : ℚ) - q| = ((⌊q⌋ : ℚ) + 1) - q := by
        push_cast; rw [abs_of_nonneg (by linarith)]
      rw [this] at habs; linarith
  · refine ⟨?_, fun _ => heven⟩
    have he : q - (⌊q⌋ : ℚ) = 1/2 := by linarith
    rw [abs_le]; constructor <;> linarith
  · have he : q - (⌊q⌋ : ℚ) = 1/2 := by linarith
    refine ⟨?_, fun _ => by omega⟩
    rw [abs_le]; push_cast; constructor <;> linarith

theorem pyRound2_close (q : ℚ) : |pyRound2 q - q| ≤ 1/200 := by
  have h := (rhe_spec (q * 100)).1
  have e : pyRound2 q - q = ((rhe (q * 100) : ℚ) - q * 100) / 100 := by
    unfold pyRound2; ring
  rw [e, abs_div, abs_of_pos (by norm_num : (0:ℚ) < 100)]
  linarith

/-- A value is the banker's rounding (half to even) of `raw` at two
decimals: it is an integer multiple of 0.01 within 0.005 of `raw`, and an
exact tie is resolved to an even multiple. -/
def IsBankersRounded2 (rounded raw : ℚ) : Prop :=
  ∃ k : ℤ, rounded = (k : ℚ) / 100 ∧ |(k : ℚ) - raw * 100| ≤ 1/2 ∧
    (|(k : ℚ) - raw * 100| = 1/2 → k % 2 = 0)

theorem pyRound2_isBankers (q : ℚ) : IsBankersRounded2 (pyRound2 q) q := by
  refine ⟨rhe (q * 100), rfl, ?_, ?_⟩
  · exact (rhe_spec (q * 100)).1
  · exact (rhe_spec (q * 100)).2

theorem rhe_of_int (n : ℤ) : rhe (n : ℚ) = n := by
  unfold rhe
  rw [Int.floor_intCast]
  norm_num

theorem rhe_half_even (n : ℤ) (he : n % 2 = 0) : rhe ((n : ℚ) + 1/2) = n := by
  have hf : ⌊(n : ℚ) + 1/2⌋ = n := by
    rw [add_comm, Int.floor_add_int]
    norm_num
  have hx : ((n : ℚ) + 1/2) - (n : ℚ) = 1/2 := by ring
  unfold rhe
  rw [hf, hx, if_neg (lt_irrefl _), if_neg (lt_irrefl _), if_pos he]

theorem pyRound2_eq_int (q : ℚ) (n : ℤ) (h : q * 100 = (n : ℚ)) :
    pyRound2 q = (n : ℚ) / 100 := by
  unfold pyRound2
  rw [h, rhe_of_int]

theorem pyRound2_eq_half_even (q : ℚ) (n : ℤ) (h : q * 100 = (n : ℚ) + 1/2)
    (he : n % 2 = 0) : pyRound2 q = (n : ℚ) / 100 := by
  unfold pyRound2
  rw [h, rhe_half_even n he]

theorem round_split_close (s d : ℚ) :
    |(pyRound2 (s - d) + pyRound2 d) - s| ≤ 1/100 := by
  have h1 := pyRound2_close (s - d)
  have h2 := pyRound2_close d
  have e : pyRound2 (s - d) + pyRound2 d - s
      = (pyRound2 (s - d) - (s - d)) + (pyRound2 d - d) := by ring
  rw [e]
  exact le_trans (abs_add _ _) (by linarith)

/-! ## Tax rule engine

Embedding of `calculate_tax_deductions` (src/utils/calculations.py,
lines 69-123) and of `_apply_tax_rules` / `_calculate_tax_amounts`
(src/services/llm_service.py, lines 236-308).  Python dicts keyed by
category name are modelled as association lists. -/

structure TaxRule where
  vat : ℚ
  ib : ℚ
deriving DecidableEq

def lookupStr {α : Type} : List (String × α) → String → Option α
  | [], _ => none
  | (k, x) :: rest, c => if c = k then some x else lookupStr rest c

/-- Default deduction rules of `calculate_tax_deductions`
(src/utils/calculations.py, lines 88-96). -/
def default_rules : List (String × TaxRule) :=
  [("Beroepskosten", ⟨100, 100⟩),
   ("Kantoorkosten", ⟨100, 100⟩),
   ("Reis- en verblijfkosten", ⟨100, 100⟩),
   ("Representatiekosten - Type 1 (Supermarket)", ⟨0, 80⟩),
   ("Representatiekosten - Type 2 (Horeca)", ⟨0, 80⟩),
   ("Vervoerskosten", ⟨100, 100⟩),
   ("Zakelijke opleidingskosten", ⟨100, 100⟩)]

/-- Rule resolution of `calculate_tax_deductions` (lines 98-102): the
custom table is consulted only when it is provided and non-empty (Python
truthiness of the dict) and contains the category; otherwise
`default_rules.get(category, {vat: 100, ib: 100})`. -/
def resolveRules (category : String)
    (custom_percentages : Option (List (String × TaxRule))) : TaxRule :=
  match custom_percentages with
  | some l =>
      if l.isEmpty then (lookupStr default_rules category).getD ⟨100, 100⟩
      else
        match lookupStr l category with
        | some r => r
        | none => (lookupStr default_rules category).getD ⟨100, 100⟩
  | none => (lookupStr default_rules category).getD ⟨100, 100⟩

structure TaxDeductions where
  vat_deductible_percentage : ℚ
  ib_deductible_percentage : ℚ
  vat_deductible_amount : ℚ
  ib_deductible_amount : ℚ
  remainder_after_vat : ℚ
  profit_deduction : ℚ
  total_deductible : ℚ
  net_cost : ℚ
deriving DecidableEq

/-- Embedding of `calculate_tax_deductions` (src/utils/calculations.py,
lines 69-123).  Note line 112: the profit deduction is computed from
`remainder_after_vat`, not from `amount_excl_vat`. -/
def calculate_tax_deductions (category : String)
    (amount_excl_vat vat_amount : ℚ)
    (custom_percentages : Option (List (String × TaxRule))) : TaxDeductions :=
  let rules := resolveRules category custom_percentages
  let vat_deductible := vat_amount * (rules.vat / 100)
  let ib_deductible := amount_excl_vat * (rules.ib / 100)
  let remainder_after_vat := amount_excl_vat + vat_amount - vat_deductible
  let profit_deduction := remainder_after_vat * (rules.ib / 100)
  { vat_deductible_percentage := rules.vat
    ib_deductible_percentage := rules.ib
    vat_deductible_amount := pyRound2 vat_deductible
    ib_deductible_amount := pyRound2 ib_deductible
    remainder_after_vat := pyRound2 remainder_after_vat
    profit_deduction := pyRound2 profit_deduction
    total_deductible := pyRound2 (vat_deductible + profit_deduction)
    net_cost := pyRound2 (amount_excl_vat + vat_amount - vat_deductible - profit_deduction) }

/-- Default tax rules of `_apply_tax_rules` (src/services/llm_service.py,
lines 254-262); identical pairs to `default_rules`. -/
def default_tax_rules : List (String × TaxRule) :=
  [("Beroepskosten", ⟨100, 100⟩),
   ("Kantoorkosten", ⟨100, 100⟩),
   ("Reis- en verblijfkosten", ⟨100, 100⟩),
   ("Representatiekosten - Type 1 (Supermarket)", ⟨0, 80⟩),
   ("Representatiekosten - Type 2 (Horeca)", ⟨0, 80⟩),
   ("Vervoerskosten", ⟨100, 100⟩),
   ("Zakelijke opleidingskosten", ⟨100, 100⟩)]

/-- Embedding of `_apply_tax_rules` (src/services/llm_service.py, lines
236-278).  The database read (`get_category_tax_rules`) is passed in as
the association list `tax_rules_db`. -/
def apply_tax_rules (tax_rules_db : List (String × TaxRule))
    (category : String) : TaxRule :=
  match lookupStr tax_rules_db category with
  | some r => r
  | none => (lookupStr default_tax_rules category).getD ⟨100, 100⟩

structure TaxAmounts where
  amount_excl_vat : ℚ
  vat_amount : ℚ
  vat_deductible_amount : ℚ
  remainder_after_vat : ℚ
  profit_deduction : ℚ
deriving DecidableEq

/-- Embedding of `_calculate_tax_amounts` (src/services/llm_service.py,
lines 280-308).  The fields read from the structured-data dict are passed
as arguments; the percentage fields default to 100 when absent, as in the
`.get(..., 100)` calls. -/
def calculate_tax_amounts (total_amount : ℚ) (vat_breakdown : List ℚ)
    (vat_deductible_percentage ib_deductible_percentage : Option ℚ) : TaxAmounts :=
  let total_vat := vat_breakdown.sum
  let amount_excl_vat := total_amount - total_vat
  let btw_percentage := vat_deductible_percentage.getD 100
  let ib_percentage := ib_deductible_percentage.getD 100
  let vat_deductible := total_vat * (btw_percentage / 100)
  let remainder_after_vat := total_amount - vat_deductible
  let profit_deduction := amount_excl_vat * (ib_percentage / 100)
  { amount_excl_vat := pyRound2 amount_excl_vat
    vat_amount := pyRound2 total_vat
    vat_deductible_amount := pyRound2 vat_deductible
    remainder_after_vat := pyRound2 remainder_after_vat
    profit_deduction := pyRound2 profit_deduction }

/-! ## Claims about the tax engine -/

/-- C1 (corrected): `_calculate_tax_amounts` computes
`profitDeduction = amountExclVat * ibPct/100` (up to the 0.005 rounding
error), but `calculate_tax_deductions` computes the profit deduction from
the remainder after VAT: for a category resolved to {vat: 0, ib: 80} it
returns `round2(0.8 * (amountExclVat + vatAmount))`, not
`0.8 * amountExclVat`. -/
theorem C1_profit_deduction_amended (a v btwP ibP : ℚ) :
    |(calculate_tax_amounts (a + v) [v] (some btwP) (some ibP)).profit_deduction
        - a * (ibP / 100)| ≤ 1/200
    ∧ (calculate_tax_deductions "Representatiekosten - Type 1 (Supermarket)" a v
        none).profit_deduction = pyRound2 ((a + v) * (80 / 100)) := by
  constructor
  · have hfield : (calculate_tax_amounts (a + v) [v] (some btwP) (some ibP)).profit_deduction
        = pyRound2 (a * (ibP / 100)) := by
      simp only [calculate_tax_amounts, List.sum_cons, List.sum_nil, Option.getD_some]
      congr 1
      ring
    rw [hfield]
    exact pyRound2_close _
  · have hr : resolveRules "Representatiekosten - Type 1 (Supermarket)" none = ⟨0, 80⟩ := by
      decide
    have hfield : (calculate_tax_deductions "Representatiekosten - Type 1 (Supermarket)" a v
        none).profit_deduction
        = pyRound2 ((a + v
            - v * ((resolveRules "Representatiekosten - Type 1 (Supermarket)" none).vat / 100))
          * ((resolveRules "Representatiekosten - Type 1 (Supermarket)" none).ib / 100)) := rfl
    rw [hfield, hr]
    congr 1
    ring

/-- C1 fails as stated in `calculate_tax_deductions`: for the supermarket
representation category (resolved to {vat: 0, ib: 80}) with
amountExclVat = 19.27 and vatAmount = 1.73 the profit deduction is
0.8 * 21.00 = 16.80, not 0.8 * 19.27 = 15.42 (± 0.01). -/
theorem C1_counterexample :
    ¬ |(calculate_tax_deductions "Representatiekosten - Type 1 (Supermarket)"
        (1927/100) (173/100) none).profit_deduction - (80/100) * (1927/100)| ≤ 1/100 := by
  have hr : resolveRules "Representatiekosten - Type 1 (Supermarket)" none = ⟨0, 80⟩ := by
    decide
  have hfield : (calculate_tax_deductions "Representatiekosten - Type 1 (Supermarket)"
      (1927/100) (173/100) none).profit_deduction
      = pyRound2 ((1927/100 + 173/100 - 173/100 * ((0 : ℚ) / 100)) * ((80 : ℚ) / 100)) := by
    show pyRound2 ((1927/100 + 173/100
        - 173/100 * ((resolveRules "Representatiekosten - Type 1 (Supermarket)" none).vat / 100))
      * ((resolveRules "Representatiekosten - Type 1 (Supermarket)" none).ib / 100)) = _
    rw [hr]
  rw [hfield, pyRound2_eq_int _ 1680 (by norm_num)]
  have he : ((1680 : ℤ) : ℚ) / 100 - 80/100 * (1927/100) = 173/125 := by
    push_cast
    norm_num
  rw [he, abs_of_pos (by norm_num)]
  norm_num

/-- C6 (corrected): after rounding, `remainderAfterVat + vatDeductible`
equals `amountExclVat + vatAmount` within ±0.01 (but not exactly: both
summands are rounded to 2 decimals independently), in both engines. -/
theorem C6_invariant_within_tolerance (category : String) (a v : ℚ)
    (custom : Option (List (String × TaxRule)))
    (tot : ℚ) (vb : List ℚ) (bp ip : Option ℚ) :
    |((calculate_tax_deductions category a v custom).remainder_after_vat
        + (calculate_tax_deductions category a v custom).vat_deductible_amount)
      - (a + v)| ≤ 1/100
    ∧ |((calculate_tax_amounts tot vb bp ip).remainder_after_vat
        + (calculate_tax_amounts tot vb bp ip).vat_deductible_amount)
      - tot| ≤ 1/100 := by
  constructor
  · have e1 : (calculate_tax_deductions category a v custom).remainder_after_vat
        = pyRound2 ((a + v) - v * ((resolveRules category custom).vat / 100)) := rfl
    have e2 : (calculate_tax_deductions category a v custom).vat_deductible_amount
        = pyRound2 (v * ((resolveRules category custom).vat / 100)) := rfl
    rw [e1, e2]
    exact round_split_close _ _
  · have e1 : (calculate_tax_amounts tot vb bp ip).remainder_after_vat
        = pyRound2 (tot - vb.sum * (bp.getD 100 / 100)) := rfl
    have e2 : (calculate_tax_amounts tot vb bp ip).vat_deductible_amount
        = pyRound2 (vb.sum * (bp.getD 100 / 100)) := rfl
    rw [e1, e2]
    exact round_split_close _ _

/-- C6 fails as an exact equality: with a 50% VAT rule, amountExclVat = 0
and vatAmount = 0.25, both 0.125-valued summands round to 0.12, so the
sum is 0.24, not 0.25. -/
theorem C6_counterexample :
    (calculate_tax_deductions "X" 0 (1/4) (some [("X", ⟨50, 100⟩)])).remainder_after_vat
      + (calculate_tax_deductions "X" 0 (1/4) (some [("X", ⟨50, 100⟩)])).vat_deductible_amount
      ≠ 0 + 1/4 := by
  have hr : resolveRules "X" (some [("X", (⟨50, 100⟩ : TaxRule))]) = ⟨50, 100⟩ := by
    decide
  have h1 : (calculate_tax_deductions "X" 0 (1/4)
      (some [("X", ⟨50, 100⟩)])).remainder_after_vat = ((12 : ℤ) : ℚ) / 100 := by
    show pyRound2 (0 + 1/4
        - 1/4 * ((resolveRules "X" (some [("X", (⟨50, 100⟩ : TaxRule))])).vat / 100)) = _
    rw [hr]
    exact pyRound2_eq_half_even _ 12 (by norm_num) (by decide)
  have h2 : (calculate_tax_deductions "X" 0 (1/4)
      (some [("X", ⟨50, 100⟩)])).vat_deductible_amount = ((12 : ℤ) : ℚ) / 100 := by
    show pyRound2 (1/4 * ((resolveRules "X" (some [("X", (⟨50, 100⟩ : TaxRule))])).vat / 100)) = _
    rw [hr]
    exact pyRound2_eq_half_even _ 12 (by norm_num) (by decide)
  rw [h1, h2]
  push_cast
  norm_num

/-- C7 (corrected): every rounded result of the tax engines is the
banker's rounding (round half to even) of its unrounded value at two
decimals — an integer multiple of 0.01 within 0.005 of the raw value,
ties resolved to an even multiple — not the half-up rounding the spec
states. -/
theorem C7_results_rounded_half_even (category : String) (a v : ℚ)
    (custom : Option (List (String × TaxRule)))
    (tot : ℚ) (vb : List ℚ) (bp ip : Option ℚ) :
    (IsBankersRounded2 (calculate_tax_deductions category a v custom).vat_deductible_amount
        (v * ((resolveRules category custom).vat / 100))
      ∧ IsBankersRounded2 (calculate_tax_deductions category a v custom).remainder_after_vat
        (a + v - v * ((resolveRules category custom).vat / 100))
      ∧ IsBankersRounded2 (calculate_tax_deductions category a v custom).profit_deduction
        ((a + v - v * ((resolveRules category custom).vat / 100))
          * ((resolveRules category custom).ib / 100))
      ∧ IsBankersRounded2 (calculate_tax_deductions category a v custom).total_deductible
        (v * ((resolveRules category custom).vat / 100)
          + (a + v - v * ((resolveRules category custom).vat / 100))
            * ((resolveRules category custom).ib / 100)))
    ∧ (IsBankersRounded2 (calculate_tax_amounts tot vb bp ip).vat_deductible_amount
        (vb.sum * (bp.getD 100 / 100))
      ∧ IsBankersRounded2 (calculate_tax_amounts tot vb bp ip).remainder_after_vat
        (tot - vb.sum * (bp.getD 100 / 100))
      ∧ IsBankersRounded2 (calculate_tax_amounts tot vb bp ip).profit_deduction
        ((tot - vb.sum) * (ip.getD 100 / 100))) :=
  ⟨⟨pyRound2_isBankers _, pyRound2_isBankers _, pyRound2_isBankers _, pyRound2_isBankers _⟩,
   pyRound2_isBankers _, pyRound2_isBankers _, pyRound2_isBankers _⟩

/-- C7 fails as stated: with a 50% VAT rule the unrounded deductible
0.25 * 0.5 = 0.125 rounds to 0.12 (tie to the even multiple), while
half-up rounding would give 0.13. -/
theorem C7_counterexample :
    (calculate_tax_deductions "X" 0 (1/4) (some [("X", ⟨50, 100⟩)])).vat_deductible_amount
      ≠ roundHalfUpSpec2 ((1/4) * (50 / 100)) := by
  have hr : resolveRules "X" (some [("X", (⟨50, 100⟩ : TaxRule))]) = ⟨50, 100⟩ := by
    decide
  have h2 : (calculate_tax_deductions "X" 0 (1/4)
      (some [("X", ⟨50, 100⟩)])).vat_deductible_amount = ((12 : ℤ) : ℚ) / 100 := by
    show pyRound2 (1/4 * ((resolveRules "X" (some [("X", (⟨50, 100⟩ : TaxRule))])).vat / 100)) = _
    rw [hr]
    exact pyRound2_eq_half_even _ 12 (by norm_num) (by decide)
  have hrhs : roundHalfUpSpec2 ((1/4) * (50 / 100)) = ((13 : ℤ) : ℚ) / 100 := by
    unfold roundHalfUpSpec2
    rw [show (1 : ℚ)/4 * (50/100) * 100 + 1/2 = ((13 : ℤ) : ℚ) from by norm_num,
      Int.floor_intCast]
  rw [h2, hrhs]
  push_cast
  norm_num

/-- C10 (confirmed): a category that is neither one of the seven
hard-coded defaults nor present in the override tables resolves to
{vat: 100, ib: 100} in both engines — unrecognised names are silently
treated as fully deductible. -/
theorem C10_unknown_category_fully_deductible
    (category : String) (custom : Option (List (String × TaxRule)))
    (db : List (String × TaxRule)) (a v : ℚ)
    (hname : category ∉ ["Beroepskosten", "Kantoorkosten",
      "Reis- en verblijfkosten", "Representatiekosten - Type 1 (Supermarket)",
      "Representatiekosten - Type 2 (Horeca)", "Vervoerskosten",
      "Zakelijke opleidingskosten"])
    (hcustom : ∀ l, custom = some l → lookupStr l category = none)
    (hdb : lookupStr db category = none) :
    (calculate_tax_deductions category a v custom).vat_deductible_percentage = 100
    ∧ (calculate_tax_deductions category a v custom).ib_deductible_percentage = 100
    ∧ apply_tax_rules db category = ⟨100, 100⟩ := by
  simp only [List.mem_cons, List.not_mem_nil, or_false, not_or] at hname
  obtain ⟨h1, h2, h3, h4, h5, h6, h7⟩ := hname
  have hdef : lookupStr default_rules category = none := by
    simp [lookupStr, default_rules, h1, h2, h3, h4, h5, h6, h7]
  have hdef2 : lookupStr default_tax_rules category = none := by
    simp [lookupStr, default_tax_rules, h1, h2, h3, h4, h5, h6, h7]
  have hres : resolveRules category custom = ⟨100, 100⟩ := by
    cases custom with
    | none => simp [resolveRules, hdef]
    | some l =>
        have hl := hcustom l rfl
        by_cases he : l.isEmpty <;> simp [resolveRules, he, hl, hdef]
  refine ⟨?_, ?_, ?_⟩
  · show (resolveRules category custom).vat = 100
    rw [hres]
  · show (resolveRules category custom).ib = 100
    rw [hres]
  · simp [apply_tax_rules, hdb, hdef2]

/-- Concrete instance of C10: the misspelled category "Kantoorkostne"
with no overrides resolves to 100/100 in both engines. -/
theorem C10_witness :
    ("Kantoorkostne" ∉ ["Beroepskosten", "Kantoorkosten",
      "Reis- en verblijfkosten", "Representatiekosten - Type 1 (Supermarket)",
      "Representatiekosten - Type 2 (Horeca)", "Vervoerskosten",
      "Zakelijke opleidingskosten"])
    ∧ ((calculate_tax_deductions "Kantoorkostne" 10 2 none).vat_deductible_percentage = 100
      ∧ (calculate_tax_deductions "Kantoorkostne" 10 2 none).ib_deductible_percentage = 100
      ∧ apply_tax_rules [] "Kantoorkostne" = ⟨100, 100⟩) :=
  ⟨by decide,
   C10_unknown_category_fully_deductible "Kantoorkostne" none [] 10 2 (by decide)
     (fun _ h => nomatch h) rfl⟩

/-! ## Aggregation engine

Embedding of `calculate_annual_summary` (src/utils/calculations.py,
lines 190-275).  Python dicts keyed by category / month are association
lists preserving insertion order; a receipt dict is a record whose
optional fields model `.get` with defaults.  The transaction date is
modelled already parsed as a (year, month) pair, the only part
`strftime('%Y-%m')` uses. -/

def EXPENSE_CATEGORIES : List String :=
  ["Beroepskosten", "Kantoorkosten", "Reis- en verblijfkosten",
   "Representatiekosten - Type 1 (Supermarket)",
   "Representatiekosten - Type 2 (Horeca)", "Vervoerskosten",
   "Zakelijke opleidingskosten"]

structure VatBreakdown where
  v6 : ℚ
  v9 : ℚ
  v21 : ℚ
deriving DecidableEq

structure ReceiptRec where
  amount_excl_vat : ℚ
  vat_breakdown : VatBreakdown
  category : Option String
  rdate : Option (ℤ × ℕ)
deriving DecidableEq

structure CatTotals where
  count : ℕ
  amount_excl_vat : ℚ
  vat : ℚ
  total : ℚ
  deductible : ℚ
deriving DecidableEq

structure MonthTotals where
  count : ℕ
  total : ℚ
  vat : ℚ
  deductible : ℚ
deriving DecidableEq

structure AnnualSummary where
  total_expenses : ℚ
  total_vat_paid : ℚ
  total_vat_refunded : ℚ
  by_category : List (String × CatTotals)
  by_month : List ((ℤ × ℕ) × MonthTotals)
  deductible_expenses : ℚ
  non_deductible_expenses : ℚ
  receipt_count : ℕ
deriving DecidableEq

def initCat : CatTotals := ⟨0, 0, 0, 0, 0⟩

/-- Guarded in-place update of a dict entry: a no-op when the key is
absent, as the Python `if key in d:` guards behave. -/
def updateAssoc {κ α : Type} [DecidableEq κ] (l : List (κ × α)) (k : κ)
    (f : α → α) : List (κ × α) :=
  l.map (fun p => if p.1 = k then (p.1, f p.2) else p)

def containsKey {κ α : Type} [DecidableEq κ] (l : List (κ × α)) (k : κ) : Bool :=
  l.any (fun p => p.1 = k)

/-- Loop body of `calculate_annual_summary` (lines 222-270). -/
def processReceiptAnnual (acc : AnnualSummary) (r : ReceiptRec) : AnnualSummary :=
  let amount_excl := r.amount_excl_vat
  let vat_amount := r.vat_breakdown.v6 + r.vat_breakdown.v9 + r.vat_breakdown.v21
  let total_amount := amount_excl + vat_amount
  let category := r.category.getD "Kantoorkosten"
  let deductions := calculate_tax_deductions category amount_excl vat_amount none
  let acc1 := { acc with
    total_expenses := acc.total_expenses + total_amount
    total_vat_paid := acc.total_vat_paid + vat_amount
    by_category := updateAssoc acc.by_category category (fun c =>
      { c with
        count := c.count + 1
        amount_excl_vat := c.amount_excl_vat + amount_excl
        vat := c.vat + vat_amount
        total := c.total + total_amount }) }
  let acc2 := { acc1 with
    total_vat_refunded := acc1.total_vat_refunded + deductions.vat_deductible_amount
    deductible_expenses := acc1.deductible_expenses + deductions.profit_deduction
    non_deductible_expenses := acc1.non_deductible_expenses
      + (amount_excl - deductions.profit_deduction)
    by_category := updateAssoc acc1.by_category category (fun c =>
      { c with deductible := c.deductible + deductions.profit_deduction }) }
  match r.rdate with
  | none => acc2
  | some mk =>
      let bm := if containsKey acc2.by_month mk then acc2.by_month
        else acc2.by_month ++ [(mk, ⟨0, 0, 0, 0⟩)]
      { acc2 with by_month := updateAssoc bm mk (fun m =>
          { m with
            count := m.count + 1
            total := m.total + total_amount
            vat := m.vat + vat_amount
            deductible := m.deductible + deductions.profit_deduction }) }

def initAnnual (n : ℕ) : AnnualSummary :=
  { total_expenses := 0
    total_vat_paid := 0
    total_vat_refunded := 0
    by_category := EXPENSE_CATEGORIES.map (fun c => (c, initCat))
    by_month := []
    deductible_expenses := 0
    non_deductible_expenses := 0
    receipt_count := n }

def roundCat (c : CatTotals) : CatTotals :=
  ⟨c.count, pyRound2 c.amount_excl_vat, pyRound2 c.vat, pyRound2 c.total,
   pyRound2 c.deductible⟩

def roundMonth (m : MonthTotals) : MonthTotals :=
  ⟨m.count, pyRound2 m.total, pyRound2 m.vat, pyRound2 m.deductible⟩

/-- Embedding of `round_nested_dict` (lines 383-400) applied to the
annual summary: every rational leaf is rounded to 2 decimals, counts are
untouched. -/
def roundAnnual (s : AnnualSummary) : AnnualSummary :=
  { total_expenses := pyRound2 s.total_expenses
    total_vat_paid := pyRound2 s.total_vat_paid
    total_vat_refunded := pyRound2 s.total_vat_refunded
    by_category := s.by_category.map (fun p => (p.1, roundCat p.2))
    by_month := s.by_month.map (fun p => (p.1, roundMonth p.2))
    deductible_expenses := pyRound2 s.deductible_expenses
    non_deductible_expenses := pyRound2 s.non_deductible_expenses
    receipt_count := s.receipt_count }

/-- Embedding of `calculate_annual_summary` (src/utils/calculations.py,
lines 190-275). -/
def calculate_annual_summary (receipts : List ReceiptRec) : AnnualSummary :=
  roundAnnual (receipts.foldl processReceiptAnnual (initAnnual receipts.length))

theorem pyRound2_zero : pyRound2 0 = 0 := by
  rw [pyRound2_eq_int 0 0 (by norm_num)]
  norm_num

/-- C5 (corrected): on an empty record list the annual summary has every
numeric total equal to 0 and an empty per-month breakdown, and the
function is total (no exception) — but the per-category breakdown is not
empty: it is pre-initialised with an all-zero entry for each of the seven
configured categories. -/
theorem C5_empty_summary_amended :
    calculate_annual_summary [] =
      { total_expenses := 0
        total_vat_paid := 0
        total_vat_refunded := 0
        by_category := EXPENSE_CATEGORIES.map (fun c => (c, initCat))
        by_month := []
        deductible_expenses := 0
        non_deductible_expenses := 0
        receipt_count := 0 } := by
  simp [calculate_annual_summary, roundAnnual, initAnnual, EXPENSE_CATEGORIES,
    roundCat, initCat, pyRound2_zero]

/-- C5 fails as stated: the per-category breakdown of the empty summary
is not empty (it holds the seven zero-initialised categories). -/
theorem C5_counterexample : (calculate_annual_summary []).by_category ≠ [] := by
  simp [calculate_annual_summary, roundAnnual, initAnnual, EXPENSE_CATEGORIES]

/-! ## Categorizer

Embedding of `_extract_category` (src/services/llm_service.py, lines
182-234).  The external classification call is modelled by its response
text; `response.text.strip()` is `pyStripStr`.  The structured record
(vendor name) feeds only the prompt: the fallback ignores it. -/

def isPyWs (c : Char) : Bool :=
  c = ' ' || c = '\t' || c = '\n' || c = '\r'

def pyStripChars (l : List Char) : List Char :=
  ((l.dropWhile isPyWs).reverse.dropWhile isPyWs).reverse

def pyStripStr (s : String) : String := ⟨pyStripChars s.data⟩

/-- Category list of `_extract_category` (lines 192-200). -/
def llm_categories : List String :=
  ["Beroepskosten", "Kantoorkosten", "Reis- en verblijfkosten",
   "Representatiekosten - Type 1 (Supermarket)",
   "Representatiekosten - Type 2 (Horeca)", "Vervoerskosten",
   "Zakelijke opleidingskosten"]

/-- Embedding of `_extract_category` (lines 182-234): the stripped
response label is returned when it is a member of the category list;
otherwise the function returns "Kantoorkosten" directly. -/
def extract_category (vendor_name : String) (response_text : String) : String :=
  let category := pyStripStr response_text
  if category ∈ llm_categories then category else "Kantoorkosten"

def leadsWith : List Char → List Char → Bool
  | [], _ => true
  | _ :: _, [] => false
  | a :: as, b :: bs => a = b && leadsWith as bs

def containsSub (needle : List Char) : List Char → Bool
  | [] => needle.isEmpty
  | c :: rest => leadsWith needle (c :: rest) || containsSub needle rest

/-- ASCII model of Python `str.lower()` (the vendor keywords and names
involved are ASCII). -/
def pyLowerChar (c : Char) : Char :=
  if 'A' ≤ c ∧ c ≤ 'Z' then Char.ofNat (c.toNat + 32) else c

def pyLower (l : List Char) : List Char := l.map pyLowerChar

/-- Embedding of `categorize_from_data`
(src/services/llm_service_1step.py, lines 162-187): the rule-based
vendor-keyword categorizer of the unwired 1-step pipeline variant.  The
vendor name is lower-cased (`(receipt_data.get('vendor_name', '') or
'').lower()`, modelled by `Option.getD` plus `pyLower`); `name in vendor`
is substring containment; the `items` field is read but unused in the
source.  Nothing in the repository calls this function. -/
def categorize_from_data (vendor_name : Option String) : String :=
  let vendor := pyLower (vendor_name.getD "").data
  if ["albert heijn", "jumbo", "lidl", "aldi", "plus"].any
      (fun k => containsSub k.data vendor) then
    "Representatiekosten - Type 1 (Supermarket)"
  else if ["restaurant", "cafe", "coffee", "koffie"].any
      (fun k => containsSub k.data vendor) then
    "Representatiekosten - Type 2 (Horeca)"
  else if ["shell", "esso", "bp", "tank"].any
      (fun k => containsSub k.data vendor) then
    "Vervoerskosten"
  else if ["staples", "office", "kantoor"].any
      (fun k => containsSub k.data vendor) then
    "Kantoorkosten"
  else if ["bol.com", "coolblue", "mediamarkt"].any
      (fun k => containsSub k.data vendor) then
    "Beroepskosten"
  else "Kantoorkosten"

/-- C4 (corrected): when the external call returns a label outside the
enum, the cited Categorizer (`_extract_category`) falls back directly to
the default category "Kantoorkosten", ignoring the vendor name; the
spec's vendor-keyword fallback is implemented only in
`categorize_from_data` of the unwired 1-step variant, which
`_extract_category` never calls.  In all cases the output of either
categorizer is one valid enum member — never null, never free text. -/
theorem C4_category_always_valid_enum :
    (∀ (vendor response : String),
      extract_category vendor response ∈ llm_categories
      ∧ (pyStripStr response ∉ llm_categories →
          extract_category vendor response = "Kantoorkosten"))
    ∧ ∀ vendor_name : Option String,
        categorize_from_data vendor_name ∈ llm_categories := by
  constructor
  · intro vendor response
    unfold extract_category
    by_cases h : pyStripStr response ∈ llm_categories
    · refine ⟨?_, fun hn => absurd h hn⟩
      simp [h]
    · refine ⟨?_, fun _ => by simp [h]⟩
      simp only [h, if_false]
      simp [llm_categories]
  · intro vendor_name
    simp only [categorize_from_data]
    split_ifs <;> simp [llm_categories]

/-- Concrete instance of C4: the invalid label "Groceries" falls back to
"Kantoorkosten". -/
theorem C4_witness :
    pyStripStr "Groceries" ∉ llm_categories
    ∧ extract_category "Albert Heijn" "Groceries" = "Kantoorkosten" :=
  ⟨by decide,
   (C4_category_always_valid_enum.1 "Albert Heijn" "Groceries").2 (by decide)⟩

/-- C4 fails as stated: for the supermarket vendor "Albert Heijn" with an
invalid label, the cited Categorizer returns the default "Kantoorkosten",
while the repository's own keyword fallback (`categorize_from_data`,
never called by the pipeline) maps that vendor to the supermarket
representation category — `_extract_category` performs no keyword
matching. -/
theorem C4_counterexample :
    extract_category "Albert Heijn" "Groceries" = "Kantoorkosten"
    ∧ categorize_from_data (some "Albert Heijn")
        = "Representatiekosten - Type 1 (Supermarket)"
    ∧ extract_category "Albert Heijn" "Groceries"
        ≠ categorize_from_data (some "Albert Heijn") := by
  refine ⟨by decide, by decide, by decide⟩

/-! ## Post-validation of the transaction date

Embedding of the date handling of `_prepare_database_data`
(src/services/processing_pipeline.py, lines 120-127).  The third-party
`dateutil.parser.parse` call is passed in as `dateparse` (`none` models a
raised parse error); `datetime.now()` is the argument `now`. -/

def prepare_transaction_date (dateField : Option String)
    (dateparse : String → Option ℤ) (now : ℤ) : Option ℤ :=
  match dateField with
  | none => none
  | some s =>
      if s = "" then none
      else
        match dateparse s with
        | some d => some d
        | none => some now

structure DbData where
  transaction_date : Option ℤ
  vendor_name : Option String
  expense_category : Option String
  confidence_score : ℚ
  manual_review_required : Bool
deriving DecidableEq

/-- Embedding of `_prepare_database_data` (lines 109-157), restricted to
the fields with logic: the date post-validation, the confidence default
(0.8) and the manual-review flag (`confidence (default 1) < 0.7`). -/
def prepare_database_data (edate : Option String) (vendor category : Option String)
    (confidence : Option ℚ) (dateparse : String → Option ℤ) (now : ℤ) : DbData :=
  { transaction_date := prepare_transaction_date edate dateparse now
    vendor_name := vendor
    expense_category := category
    confidence_score := confidence.getD (8/10)
    manual_review_required := decide (confidence.getD 1 < 7/10) }

/-- C3 (corrected): an invalid or unparseable date string is stored as
the current datetime (`datetime.now()`), not as null; only a missing or
empty date field yields null.  No exception escapes (the bare `except:`
catches the parse error). -/
theorem C3_date_amended (s : String) (dateparse : String → Option ℤ) (now : ℤ) :
    prepare_transaction_date none dateparse now = none
    ∧ prepare_transaction_date (some "") dateparse now = none
    ∧ (dateparse s = none → s ≠ "" →
        prepare_transaction_date (some s) dateparse now = some now)
    ∧ (∀ d, dateparse s = some d → s ≠ "" →
        prepare_transaction_date (some s) dateparse now = some d) := by
  refine ⟨rfl, rfl, ?_, ?_⟩
  · intro h hs
    simp [prepare_transaction_date, h, hs]
  · intro d h hs
    simp [prepare_transaction_date, h, hs]

/-- Concrete instance of C3 as amended: an unparseable date becomes the
processing-time stamp. -/
theorem C3_witness :
    ((fun _ : String => (none : Option ℤ)) "not-a-date" = none)
    ∧ ("not-a-date" : String) ≠ ""
    ∧ prepare_transaction_date (some "not-a-date") (fun _ => none) 7 = some 7 :=
  ⟨rfl, by decide,
   (C3_date_amended "not-a-date" (fun _ => none) 7).2.2.1 rfl (by decide)⟩

/-- C3 fails as stated: for an unparseable date string the stored
transaction date is the current datetime, not null. -/
theorem C3_counterexample :
    prepare_transaction_date (some "not-a-date") (fun _ => none) 20260101 ≠ none
    ∧ prepare_transaction_date (some "not-a-date") (fun _ => none) 20260101
      = some 20260101 :=
  ⟨by decide, rfl⟩

/-! ## Currency conversion

Embedding of `get_exchange_rate` / `_get_fallback_rate`
(src/services/exchange_rate_service.py, lines 26-90 and 144-168).  Dates
are day numbers (ℤ); the cache dict keyed by `"{from}_{to}_{date}"` is an
association list keyed by the (from, to, date) triple; the outcome of
`_fetch_from_api` (a successful rate entry, or a raised exception with
its message) and `date.today()` are passed in as arguments. -/

structure SEntry where
  rate : ℚ
  rdate : ℤ
  source : String
deriving DecidableEq

abbrev RateCache := List ((String × String × ℤ) × SEntry)

def lookupCache (cache : RateCache) (f t : String) (d : ℤ) : Option SEntry :=
  match cache with
  | [] => none
  | (k, e) :: rest => if k = (f, t, d) then some e else lookupCache rest f t d

inductive RateResult where
  | success (rate : ℚ) (rdate : ℤ) (source : String)
  | failure (error : String) (rdate : ℤ)
deriving DecidableEq

/-- Loop of `_get_fallback_rate` (lines 158-166): starting at
`days_ago = k`, check `fuel` consecutive days going backward from today
and return the first cache hit. -/
def scanFallback (cache : RateCache) (f t : String) (today : ℤ) :
    ℕ → ℕ → Option SEntry
  | _, 0 => none
  | k, fuel + 1 =>
      match lookupCache cache f t (today - k) with
      | some e => some e
      | none => scanFallback cache f t today (k + 1) fuel

/-- Embedding of `_get_fallback_rate` (lines 144-168): scans the 30 days
before `date.today()` — not before the requested date. -/
def get_fallback_rate (cache : RateCache) (f t : String) (today : ℤ) :
    Option SEntry :=
  scanFallback cache f t today 1 30

/-- Embedding of `get_exchange_rate` (lines 26-90).  The returned pair is
(result dict, cache after the call); the fallback copies the cached entry
with its source re-tagged `"cache_fallback"`. -/
def get_exchange_rate (cache : RateCache) (api : Except String SEntry)
    (today : ℤ) (from_currency to_currency : String)
    (rate_date : Option ℤ) : RateResult × RateCache :=
  if from_currency = to_currency then
    (.success 1 (rate_date.getD today) "no_conversion", cache)
  else
    let d := rate_date.getD today
    match lookupCache cache from_currency to_currency d with
    | some e => (.success e.rate e.rdate e.source, cache)
    | none =>
        match api with
        | .ok e =>
            (.success e.rate e.rdate e.source,
             ((from_currency, to_currency, d), e) :: cache)
        | .error msg =>
            match get_fallback_rate cache from_currency to_currency today with
            | some e => (.success e.rate e.rdate "cache_fallback", cache)
            | none => (.failure msg d, cache)

theorem scanFallback_some (cache : RateCache) (f t : String) (today : ℤ) :
    ∀ (fuel k : ℕ) (e : SEntry), scanFallback cache f t today k fuel = some e →
      ∃ i : ℕ, k ≤ i ∧ i < k + fuel ∧ lookupCache cache f t (today - i) = some e ∧
        ∀ j : ℕ, k ≤ j → j < i → lookupCache cache f t (today - j) = none := by
  intro fuel
  induction fuel with
  | zero => intro k e h; simp [scanFallback] at h
  | succ n ih =>
      intro k e h
      unfold scanFallback at h
      cases h0 : lookupCache cache f t (today - k) with
      | some e0 =>
          rw [h0] at h
          simp only [Option.some.injEq] at h
          exact ⟨k, le_refl k, by omega, by rw [h0, h], fun j h1 h2 => by omega⟩
      | none =>
          rw [h0] at h
          obtain ⟨i, hki, hlt, hli, hnone⟩ := ih (k + 1) e h
          refine ⟨i, by omega, by omega, hli, fun j hj1 hj2 => ?_⟩
          rcases Nat.eq_or_lt_of_le hj1 with heq | hlt2
          · rw [heq] at h0; exact h0
          · exact hnone j hlt2 hj2

theorem scanFallback_none (cache : RateCache) (f t : String) (today : ℤ) :
    ∀ (fuel k : ℕ), scanFallback cache f t today k fuel = none →
      ∀ i : ℕ, k ≤ i → i < k + fuel → lookupCache cache f t (today - i) = none := by
  intro fuel
  induction fuel with
  | zero => intro k _ i h1 h2; omega
  | succ n ih =>
      intro k h i h1 h2
      unfold scanFallback at h
      cases h0 : lookupCache cache f t (today - k) with
      | some e0 => rw [h0] at h; exact absurd h (by simp)
      | none =>
          rw [h0] at h
          rcases Nat.eq_or_lt_of_le h1 with heq | hlt
          · rw [heq] at h0; exact h0
          · exact ih (k + 1) h i hlt (by omega)

/-- C2 (corrected): when the external rate call fails and the requested
key is not cached, the 30-day backward scan is anchored at the current
date (`date.today()`), not at the requested date: `getRate` returns the
most recent cache entry for the pair dated in the window
[today − 30, today − 1], re-tagged `source = "cache_fallback"`; if that
window holds no entry it returns a failure result carrying the error
message and no rate — never a fabricated rate. -/
theorem C2_fallback_amended (cache : RateCache) (today d : ℤ) (msg : String)
    (f t : String) (hne : f ≠ t)
    (hmiss : lookupCache cache f t d = none) :
    (∃ i : ℕ, 1 ≤ i ∧ i ≤ 30 ∧
      (∃ e, lookupCache cache f t (today - i) = some e ∧
        (get_exchange_rate cache (.error msg) today f t (some d)).1
          = .success e.rate e.rdate "cache_fallback") ∧
      ∀ j : ℕ, 1 ≤ j → j < i → lookupCache cache f t (today - j) = none)
    ∨ ((∀ i : ℕ, 1 ≤ i → i ≤ 30 → lookupCache cache f t (today - i) = none) ∧
      (get_exchange_rate cache (.error msg) today f t (some d)).1
        = .failure msg d) := by
  unfold get_exchange_rate
  rw [if_neg hne]
  simp only [Option.getD_some]
  rw [hmiss]
  cases hscan : get_fallback_rate cache f t today with
  | some e =>
      left
      obtain ⟨i, h1, h2, h3, h4⟩ :=
        scanFallback_some cache f t today 30 1 e (by
          unfold get_fallback_rate at hscan
          exact hscan)
      exact ⟨i, h1, by omega, ⟨e, h3, by simp [hscan]⟩, h4⟩
  | none =>
      right
      refine ⟨fun i hi1 hi2 =>
        scanFallback_none cache f t today 30 1 (by
          unfold get_fallback_rate at hscan
          exact hscan) i hi1 (by omega), by simp [hscan]⟩

/-- Concrete instance of C2 as amended: with the only cache entry dated
today − 3, a failing call for today's missing rate falls back to it,
re-tagged `cache_fallback`. -/
theorem C2_witness :
    ("USD" : String) ≠ "EUR"
    ∧ lookupCache [(("USD", "EUR", 97), ⟨1, 97, "frankfurter"⟩)] "USD" "EUR" 100 = none
    ∧ ((∃ i : ℕ, 1 ≤ i ∧ i ≤ 30 ∧
        (∃ e, lookupCache [(("USD", "EUR", 97), ⟨1, 97, "frankfurter"⟩)] "USD" "EUR"
            ((100 : ℤ) - i) = some e ∧
          (get_exchange_rate [(("USD", "EUR", 97), ⟨1, 97, "frankfurter"⟩)]
            (.error "timeout") 100 "USD" "EUR" (some 100)).1
            = .success e.rate e.rdate "cache_fallback") ∧
        ∀ j : ℕ, 1 ≤ j → j < i →
          lookupCache [(("USD", "EUR", 97), ⟨1, 97, "frankfurter"⟩)] "USD" "EUR"
            ((100 : ℤ) - j) = none)
      ∨ ((∀ i : ℕ, 1 ≤ i → i ≤ 30 →
          lookupCache [(("USD", "EUR", 97), ⟨1, 97, "frankfurter"⟩)] "USD" "EUR"
            ((100 : ℤ) - i) = none)
        ∧ (get_exchange_rate [(("USD", "EUR", 97), ⟨1, 97, "frankfurter"⟩)]
            (.error "timeout") 100 "USD" "EUR" (some 100)).1
          = .failure "timeout" 100)) :=
  ⟨by decide, by decide,
   C2_fallback_amended [(("USD", "EUR", 97), ⟨1, 97, "frankfurter"⟩)] 100 100
     "timeout" "USD" "EUR" (by decide) (by decide)⟩

/-- C2 fails as stated: for a historical requested date (day 50, today
being day 100) with a cache entry dated day 49 — inside the 30 days
before the requested date — the failing call yields a failure result, not
the cached entry: the scan window is anchored at today. -/
theorem C2_counterexample :
    lookupCache [(("USD", "EUR", 49), ⟨1, 49, "frankfurter"⟩)] "USD" "EUR" 49
      = some ⟨1, 49, "frankfurter"⟩
    ∧ (50 : ℤ) - 30 ≤ 49 ∧ (49 : ℤ) ≤ 50
    ∧ (get_exchange_rate [(("USD", "EUR", 49), ⟨1, 49, "frankfurter"⟩)]
        (.error "timeout") 100 "USD" "EUR" (some 50)).1 = .failure "timeout" 50 := by
  refine ⟨by decide, by decide, by decide, by decide⟩

/-! ## Extraction orchestrator

Embedding of `process_receipt` (src/services/processing_pipeline.py,
lines 24-107).  The outcome of `process_receipt_file` (which catches its
own exceptions and returns a success flag) is `llm`; the boolean returned
by `save_extracted_data` is `saveOk`; `update_receipt_status` and
`log_audit_event` catch internally and never raise, so the status writes
and audit actions are recorded as lists.  The two `raise Exception(...)`
statements and the enclosing `try/except` are mirrored by the branches
below. -/

structure ProcessOutput (α : Type) where
  success : Bool
  error : Option String
  data : Option α
  statusWrites : List (String × Option String)
  auditActions : List String
deriving DecidableEq

def process_receipt {α : Type} (llm : Except String α) (saveOk : Bool)
    (userId : Option ℕ) : ProcessOutput α :=
  let writes0 : List (String × Option String) := [("processing", none)]
  let auditOf : String → List String :=
    fun a => match userId with | some _ => [a] | none => []
  match llm with
  | .error e =>
      let msg := "Gemini processing failed: " ++ e
      { success := false
        error := some msg
        data := none
        statusWrites := writes0 ++ [("failed", some msg)]
        auditActions := auditOf "process_failed" }
  | .ok d =>
      if saveOk then
        { success := true
          error := none
          data := some d
          statusWrites := writes0 ++ [("completed", none)]
          auditActions := auditOf "process" }
      else
        let msg := "Failed to save extracted data to database"
        { success := false
          error := some msg
          data := none
          statusWrites := writes0 ++ [("failed", some msg)]
          auditActions := auditOf "process_failed" }

/-- C8 (confirmed): `process_receipt` always returns a structured result
(it is a total function of the step outcomes — every step failure is
caught): the first status write is `processing`; it succeeds exactly when
the extraction succeeded and the save succeeded; on failure the result
carries the captured error message and the final status write is
`failed` with that message; on success the final write is `completed`. -/
theorem C8_process_total (α : Type) (llm : Except String α) (saveOk : Bool)
    (userId : Option ℕ) :
    (process_receipt llm saveOk userId).statusWrites.head? = some ("processing", none)
    ∧ ((process_receipt llm saveOk userId).success = true ↔
        (∃ d, llm = .ok d) ∧ saveOk = true)
    ∧ ((process_receipt llm saveOk userId).success = false →
        ∃ m, (process_receipt llm saveOk userId).error = some m ∧
          (process_receipt llm saveOk userId).statusWrites.getLast?
            = some ("failed", some m))
    ∧ ((process_receipt llm saveOk userId).success = true →
        (process_receipt llm saveOk userId).error = none ∧
        (process_receipt llm saveOk userId).statusWrites.getLast?
          = some ("completed", none)) := by
  cases llm with
  | error e => simp [process_receipt]
  | ok d => cases saveOk <;> simp [process_receipt]

/-- Concrete instance of C8: a failing extraction step yields a failure
result whose message is recorded with the terminal `failed` write. -/
theorem C8_witness :
    (process_receipt (α := ℕ) (.error "API timeout") true none).success = false
    ∧ ∃ m, (process_receipt (α := ℕ) (.error "API timeout") true none).error = some m ∧
        (process_receipt (α := ℕ) (.error "API timeout") true none).statusWrites.getLast?
          = some ("failed", some m) :=
  ⟨rfl, (C8_process_total ℕ (.error "API timeout") true none).2.2.1 rfl⟩

/-! ## Structured-data response parsing

Embedding of `_parse_json_response` (src/services/llm_service.py, lines
333-362).  Python strings are lists of characters.  `json.loads` is
modelled by `json_loads`, a JSON value parser for the JSON subset without
exponents and without `\uXXXX` escapes, which (like `json.loads`) fails
on trailing non-whitespace.  JSON numbers are represented exactly as a
mantissa and a decimal-exponent (`num m e` denotes `m / 10 ^ e`), so the
parser needs no rational normalisation. -/

def backtick : Char := Char.ofNat 96

def lbrace : Char := Char.ofNat 123

def rbrace : Char := Char.ofNat 125

/-- Python `str.split('\n')`: all pieces, empty pieces preserved. -/
def splitNl : List Char → List (List Char)
  | [] => [[]]
  | c :: rest =>
      match splitNl rest with
      | [] => [[c]]
      | h :: t => if c = '\n' then [] :: h :: t else (c :: h) :: t

/-- Markdown-fence stripping of `_parse_json_response` (lines 338-342):
when the stripped text starts with three backticks, drop the first and
last line, rejoin, and drop a leading `json` marker. -/
def stripFences (t : List Char) : List Char :=
  if leadsWith [backtick, backtick, backtick] t then
    let j := List.intercalate ['\n'] ((splitNl t).drop 1).dropLast
    if leadsWith ['j', 's', 'o', 'n'] j then j.drop 4 else j
  else t

def idxOfChar (c : Char) : List Char → Option ℕ
  | [] => none
  | a :: rest => if a = c then some 0 else (idxOfChar c rest).map (· + 1)

/-- Brace extraction of `_parse_json_response` (lines 345-348): slice
from the first `find('{')` to the last `rfind('}')` inclusive; keep the
text unchanged when either brace is missing or `end <= start`. -/
def extractBraces (t : List Char) : List Char :=
  match idxOfChar lbrace t, idxOfChar rbrace t.reverse with
  | some s, some j =>
      let e := t.length - j
      if s < e then (t.drop s).take (e - s) else t
  | _, _ => t

def isJsonWs (c : Char) : Bool :=
  c = ' ' || c = '\t' || c = '\n' || c = '\r'

def skipWs (l : List Char) : List Char := l.dropWhile isJsonWs

def escChar (c : Char) : Option Char :=
  if c = '\"' then some '\"'
  else if c = '\\' then some '\\'
  else if c = '/' then some '/'
  else if c = 'n' then some '\n'
  else if c = 't' then some '\t'
  else if c = 'r' then some '\r'
  else if c = 'b' then some (Char.ofNat 8)
  else if c = 'f' then some (Char.ofNat 12)
  else none

/-- Consume a JSON string body after the opening quote; returns the
decoded characters and the remainder after the closing quote. -/
def takeStr : List Char → Option (List Char × List Char)
  | [] => none
  | c :: rest =>
      if c = '\"' then some ([], rest)
      else if c = '\\' then
        match rest with
        | [] => none
        | e :: rest2 =>
            match escChar e with
            | some ec =>
                match takeStr rest2 with
                | some (s, r) => some (ec :: s, r)
                | none => none
            | none => none
      else
        match takeStr rest with
        | some (s, r) => some (c :: s, r)
        | none => none

def digitVal (c : Char) : Option ℕ :=
  if '0' ≤ c ∧ c ≤ '9' then some (c.toNat - 48) else none

def takeDigits : List Char → (List ℕ × List Char)
  | [] => ([], [])
  | c :: rest =>
      match digitVal c with
      | some d =>
          match takeDigits rest with
          | (ds, r) => (d :: ds, r)
      | none => ([], c :: rest)

def natOfDigits (ds : List ℕ) : ℕ := ds.foldl (fun a d => a * 10 + d) 0

/-- Parse a JSON number (optional minus, digits, optional fraction) into
mantissa and decimal exponent. -/
def parseNum (l : List Char) : Option ((ℤ × ℕ) × List Char) :=
  let (neg, l1) :=
    match l with
    | c :: rest => if c = '-' then (true, rest) else (false, l)
    | [] => (false, [])
  match takeDigits l1 with
  | ([], _) => none
  | (d :: ds, r) =>
      match r with
      | '.' :: r2 =>
          match takeDigits r2 with
          | ([], _) => none
          | (f :: fs, r3) =>
              let m : ℤ := (natOfDigits ((d :: ds) ++ (f :: fs)) : ℤ)
              some ((if neg then -m else m, (f :: fs).length), r3)
      | _ =>
          let m : ℤ := (natOfDigits (d :: ds) : ℤ)
          some ((if neg then -m else m, 0), r)

inductive Json where
  | null : Json
  | bool (b : Bool) : Json
  | num (m : ℤ) (e : ℕ) : Json
  | str (s : List Char) : Json
  | arr (elems : List Json) : Json
  | obj (members : List (List Char × Json)) : Json

mutual

def parseVal : ℕ → List Char → Option (Json × List Char)
  | 0, _ => none
  | fuel + 1, l =>
      match skipWs l with
      | [] => none
      | c :: rest =>
          if c = '\"' then
            match takeStr rest with
            | some (s, r) => some (.str s, r)
            | none => none
          else if c = lbrace then parseObj fuel rest
          else if c = '[' then parseArr fuel rest
          else if c = 't' then
            if leadsWith ['r', 'u', 'e'] rest then some (.bool true, rest.drop 3)
            else none
          else if c = 'f' then
            if leadsWith ['a', 'l', 's', 'e'] rest then some (.bool false, rest.drop 4)
            else none
          else if c = 'n' then
            if leadsWith ['u', 'l', 'l'] rest then some (.null, rest.drop 3)
            else none
          else
            match parseNum (c :: rest) with
            | some ((m, e), r) => some (.num m e, r)
            | none => none

def parseObj : ℕ → List Char → Option (Json × List Char)
  | 0, _ => none
  | fuel + 1, l =>
      match skipWs l with
      | [] => none
      | c :: rest =>
          if c = rbrace then some (.obj [], rest)
          else
            match parseMembers fuel (c :: rest) with
            | some (ms, r) => some (.obj ms, r)
            | none => none

def parseMembers : ℕ → List Char → Option (List (List Char × Json) × List Char)
  | 0, _ => none
  | fuel + 1, l =>
      match skipWs l with
      | [] => none
      | c :: rest =>
          if c = '\"' then
            match takeStr rest with
            | some (k, r1) =>
                match skipWs r1 with
                | ':' :: r2 =>
                    match parseVal fuel r2 with
                    | some (v, r3) =>
                        match skipWs r3 with
                        | ',' :: r4 =>
                            match parseMembers fuel r4 with
                            | some (ms, r5) => some ((k, v) :: ms, r5)
                            | none => none
                        | c2 :: r4 =>
                            if c2 = rbrace then some ([(k, v)], r4) else none
                        | [] => none
                    | none => none
                | _ => none
            | none => none
          else none

def parseArr : ℕ → List Char → Option (Json × List Char)
  | 0, _ => none
  | fuel + 1, l =>
      match skipWs l with
      | [] => none
      | c :: rest =>
          if c = ']' then some (.arr [], rest)
          else
            match parseElems fuel (c :: rest) with
            | some (vs, r) => some (.arr vs, r)
            | none => none

def parseElems : ℕ → List Char → Option (List Json × List Char)
  | 0, _ => none
  | fuel + 1, l =>
      match parseVal fuel l with
      | some (v, r) =>
          match skipWs r with
          | ',' :: r2 =>
              match parseElems fuel r2 with
              | some (vs, r3) => some (v :: vs, r3)
              | none => none
          | c :: r2 => if c = ']' then some ([v], r2) else none
          | [] => none
      | none => none

end

/-- Model of `json.loads`: parse one JSON value and require only
whitespace after it (Python raises "Extra data" otherwise). -/
def json_loads (l : List Char) : Option Json :=
  match parseVal (l.length + 1) l with
  | some (v, r) => if (skipWs r).isEmpty then some v else none
  | none => none

/-- The fixed record returned on `json.JSONDecodeError` (lines 355-362);
the interpolated exception text in `notes` is abstracted to the constant
"Parse error". -/
def fallback_record : Json :=
  .obj [("vendor_name".data, .str "Unknown".data),
        ("date".data, .null),
        ("total_amount".data, .num 0 0),
        ("vat_breakdown".data,
          .obj [("6".data, .num 0 0), ("9".data, .num 0 0), ("21".data, .num 0 0)]),
        ("confidence".data, .num 3 1),
        ("notes".data, .str "Parse error".data)]

def lookupKeyJ : List (List Char × Json) → List Char → Option Json
  | [], _ => none
  | (k, v) :: rest, key => if k = key then some v else lookupKeyJ rest key

/-- Numeric value denoted by `Json.num m e`. -/
def numVal (m : ℤ) (e : ℕ) : ℚ := (m : ℚ) / 10 ^ e

/-- Embedding of `_parse_json_response` (lines 333-362): strip, unwrap
markdown fences, slice from the first brace to the last closing brace,
`json.loads`; on parse failure return the fixed fallback record. -/
def parse_json_response (response_text : List Char) : Json :=
  let t1 := pyStripChars response_text
  let t2 := stripFences t1
  let t3 := extractBraces t2
  match json_loads t3 with
  | some v => v
  | none => fallback_record

def objLookup (j : Json) (key : List Char) : Option Json :=
  match j with
  | .obj ms => lookupKeyJ ms key
  | _ => none

def objSize (j : Json) : ℕ :=
  match j with
  | .obj ms => ms.length
  | _ => 0

theorem dropWhile_append_cons (p : Char → Bool) (a d : List Char) (c : Char)
    (hc : p c = false) :
    List.dropWhile p (a ++ c :: d) = List.dropWhile p a ++ c :: d := by
  induction a with
  | nil => simp [List.dropWhile_cons, hc]
  | cons x xs ih =>
      by_cases hx : p x
      · simp [List.dropWhile_cons, hx, ih]
      · simp [List.dropWhile_cons, hx]

theorem mem_dropWhile_imp {p : Char → Bool} {l : List Char} {x : Char}
    (h : x ∈ l.dropWhile p) : x ∈ l := by
  induction l with
  | nil => simpa using h
  | cons a as ih =>
      rw [List.dropWhile_cons] at h
      by_cases hp : p a
      · simp only [hp, if_true] at h
        exact List.mem_cons_of_mem _ (ih h)
      · simpa [hp] using h

theorem rstrip_append_cons (p : Char → Bool) (a d : List Char) (c : Char)
    (hc : p c = false) :
    ((a ++ c :: d).reverse.dropWhile p).reverse
      = a ++ c :: (d.reverse.dropWhile p).reverse := by
  have e1 : (a ++ c :: d).reverse = d.reverse ++ c :: a.reverse := by
    simp [List.reverse_append, List.reverse_cons, List.append_assoc]
  rw [e1, dropWhile_append_cons p d.reverse a.reverse c hc]
  simp [List.reverse_append, List.reverse_cons, List.append_assoc]

/-- `str.strip()` of a text of the shape `pre ++ "{...}" ++ post` trims
whitespace only at the two outer ends. -/
theorem pyStripChars_wrap (pre mid post : List Char) :
    pyStripChars (pre ++ (lbrace :: (mid ++ [rbrace])) ++ post)
      = pre.dropWhile isPyWs ++ (lbrace :: (mid ++ [rbrace]))
        ++ (post.reverse.dropWhile isPyWs).reverse := by
  unfold pyStripChars
  have e1 : List.dropWhile isPyWs (pre ++ (lbrace :: (mid ++ [rbrace])) ++ post)
      = pre.dropWhile isPyWs ++ (lbrace :: (mid ++ [rbrace]) ++ post) := by
    have h := dropWhile_append_cons isPyWs pre (mid ++ [rbrace] ++ post) lbrace rfl
    simp only [List.append_assoc, List.cons_append] at h ⊢
    exact h
  rw [e1]
  have e2 : pre.dropWhile isPyWs ++ (lbrace :: (mid ++ [rbrace]) ++ post)
      = (pre.dropWhile isPyWs ++ lbrace :: mid) ++ (rbrace :: post) := by
    simp [List.append_assoc, List.cons_append]
  rw [e2, rstrip_append_cons isPyWs _ post rbrace rfl]
  simp [List.append_assoc, List.cons_append]

theorem idxOf_append_cons (c : Char) (a d : List Char) (ha : c ∉ a) :
    idxOfChar c (a ++ c :: d) = some a.length := by
  induction a with
  | nil => simp [idxOfChar]
  | cons x xs ih =>
      have hx : ¬ x = c := fun h => ha (h ▸ List.mem_cons_self x xs)
      have ih2 := ih (fun h => ha (List.mem_cons_of_mem _ h))
      simp [idxOfChar, hx, ih2]

/-- The brace slice of a text of the shape `pre ++ "{...}" ++ post`, when
`pre` holds no opening brace and `post` no closing brace, is exactly the
embedded `"{...}"` span. -/
theorem extractBraces_wrap (pre mid post : List Char)
    (h1 : lbrace ∉ pre) (h2 : rbrace ∉ post) :
    extractBraces (pre ++ (lbrace :: (mid ++ [rbrace])) ++ post)
      = lbrace :: (mid ++ [rbrace]) := by
  have hs : idxOfChar lbrace (pre ++ (lbrace :: (mid ++ [rbrace])) ++ post)
      = some pre.length := by
    have h := idxOf_append_cons lbrace pre ((mid ++ [rbrace]) ++ post) h1
    simp only [List.append_assoc, List.cons_append] at h ⊢
    exact h
  have hrev : (pre ++ (lbrace :: (mid ++ [rbrace])) ++ post).reverse
      = post.reverse ++ rbrace :: (pre ++ lbrace :: mid).reverse := by
    have e0 : pre ++ (lbrace :: (mid ++ [rbrace])) ++ post
        = (pre ++ lbrace :: mid) ++ rbrace :: post := by
      simp [List.append_assoc, List.cons_append]
    rw [e0]
    simp [List.reverse_append, List.reverse_cons, List.append_assoc]
  have hj : idxOfChar rbrace (pre ++ (lbrace :: (mid ++ [rbrace])) ++ post).reverse
      = some post.length := by
    rw [hrev]
    have h := idxOf_append_cons rbrace post.reverse ((pre ++ lbrace :: mid).reverse)
      (by simpa using h2)
    simpa using h
  have hlen : (pre ++ (lbrace :: (mid ++ [rbrace])) ++ post).length
      = pre.length + (mid.length + 2) + post.length := by
    simp [List.length_append, List.length_cons]
    omega
  unfold extractBraces
  rw [hs, hj]
  simp only
  have hcond : pre.length
      < (pre ++ (lbrace :: (mid ++ [rbrace])) ++ post).length - post.length := by
    omega
  rw [if_pos hcond]
  have hdrop : (pre ++ (lbrace :: (mid ++ [rbrace])) ++ post).drop pre.length
      = (lbrace :: (mid ++ [rbrace])) ++ post := by
    have e0 : pre ++ (lbrace :: (mid ++ [rbrace])) ++ post
        = pre ++ ((lbrace :: (mid ++ [rbrace])) ++ post) := by
      simp [List.append_assoc]
    rw [e0, List.drop_left]
  rw [hdrop]
  have hx : (pre ++ (lbrace :: (mid ++ [rbrace])) ++ post).length - post.length
      - pre.length = (lbrace :: (mid ++ [rbrace])).length := by
    simp only [List.length_cons, List.length_append, List.length_singleton] at *
    omega
  rw [hx, List.take_left]

/-- C9 (corrected): the parser strips markdown fences and slices from the
first `'{'` to the last `'}'` before `json.loads`, so a fenced response
or one surrounded by prose parses correctly provided the prose holds no
braces outside the object; extra braces in the prose defeat the slice and
the parser instead returns the fixed default record (vendor "Unknown",
totals 0, `confidence = 0.3 ≤ 0.5`) — on any parse failure it returns
that record and raises no exception. -/
theorem C9_parse_robustness_amended :
    (∀ (pre mid post : List Char) (v : Json),
      lbrace ∉ pre → rbrace ∉ post →
      leadsWith [backtick, backtick, backtick]
        (pyStripChars (pre ++ (lbrace :: (mid ++ [rbrace])) ++ post)) = false →
      json_loads (lbrace :: (mid ++ [rbrace])) = some v →
      parse_json_response (pre ++ (lbrace :: (mid ++ [rbrace])) ++ post) = v)
    ∧ parse_json_response ("```json\n".data ++ (lbrace :: ("\"a\": 1".data
        ++ [rbrace])) ++ "\n```".data) = .obj [("a".data, .num 1 0)]
    ∧ (∀ s : List Char,
        json_loads (extractBraces (stripFences (pyStripChars s))) = none →
        parse_json_response s = fallback_record)
    ∧ objLookup fallback_record "confidence".data = some (.num 3 1)
    ∧ numVal 3 1 ≤ 1/2 := by
  refine ⟨?_, rfl, ?_, rfl, by norm_num [numVal]⟩
  · intro pre mid post v h1 h2 hfence hload
    unfold parse_json_response
    rw [pyStripChars_wrap] at hfence ⊢
    have hpre : lbrace ∉ pre.dropWhile isPyWs :=
      fun hx => h1 (mem_dropWhile_imp hx)
    have hpost : rbrace ∉ (post.reverse.dropWhile isPyWs).reverse := by
      intro hx
      exact h2 (by simpa using mem_dropWhile_imp (List.mem_reverse.mp hx))
    simp only [stripFences, hfence, Bool.false_eq_true, if_false]
    rw [extractBraces_wrap _ _ _ hpre hpost, hload]
  · intro s h
    simp only [parse_json_response, h]

/-- Concrete instance of C9 as amended: a prose-wrapped object (prose
free of braces) is extracted. -/
theorem C9_witness :
    lbrace ∉ "Result: ".data
    ∧ rbrace ∉ " thanks".data
    ∧ leadsWith [backtick, backtick, backtick]
        (pyStripChars ("Result: ".data ++ (lbrace :: ("\"a\": 1".data ++ [rbrace]))
          ++ " thanks".data)) = false
    ∧ json_loads (lbrace :: ("\"a\": 1".data ++ [rbrace]))
        = some (.obj [("a".data, .num 1 0)])
    ∧ parse_json_response ("Result: ".data ++ (lbrace :: ("\"a\": 1".data
        ++ [rbrace])) ++ " thanks".data) = .obj [("a".data, .num 1 0)] :=
  ⟨by decide, by decide, by decide, rfl,
   C9_parse_robustness_amended.1 "Result: ".data "\"a\": 1".data " thanks".data
     (.obj [("a".data, .num 1 0)]) (by decide) (by decide) (by decide) rfl⟩

/-- C9 fails as stated: a response holding a well-formed JSON object
surrounded by prose that itself holds braces is not extracted — the slice
from the first `'{'` to the last `'}'` is not valid JSON and the parser
returns the fallback record instead of the embedded object. -/
theorem C9_counterexample :
    json_loads (lbrace :: ("\"a\": 1".data ++ [rbrace]))
      = some (.obj [("a".data, .num 1 0)])
    ∧ parse_json_response ("note: ".data ++ (lbrace :: ("\"a\": 1".data ++ [rbrace]))
        ++ (" tail ".data ++ (lbrace :: ("x".data ++ [rbrace]))))
      = fallback_record
    ∧ fallback_record ≠ .obj [("a".data, .num 1 0)] := by
  refine ⟨rfl, rfl, ?_⟩
  intro h
  have hsz := congrArg objSize h
  simp [objSize, fallback_record] at hsz

end DutchTax
